import Mathlib

/-!
Shallow embedding of the `VotingV2` Solidity contract
(`src/contracts/VotingV2.sol`) and proofs about its specification.

Machine integers (`uint256`) are modelled as `Nat`: no arithmetic in the
contract can realistically overflow (counters and timestamps only grow by
small increments), and Solidity 0.8 reverts on overflow rather than
wrapping, so the partial functions agree with the `Nat` model on all
reachable values.  Addresses are modelled as `Nat`.  Solidity `mapping`s
are total functions with the zero value as default, exactly as in the EVM
storage model.  Reverts are modelled as `Except.error` carrying the
require-message, and a reverted call leaves the state unchanged.
-/

namespace VotingV2

/-- A candidate record, as in the `Candidate` struct of the contract. -/
structure Candidate where
  id : Nat
  name : String
  voteCount : Nat
deriving Repr, DecidableEq

/-- The zero value of the `Candidate` struct (EVM storage default). -/
def defaultCandidate : Candidate := ⟨0, "", 0⟩

/-- An election record, as in the `Election` struct of the contract.
The per-election `candidates` mapping is a total function with
`defaultCandidate` as default. -/
structure Election where
  id : Nat
  title : String
  department : String
  description : String
  startTime : Nat
  endTime : Nat
  isActive : Bool
  candidates : Nat → Candidate
  candidatesCount : Nat

/-- The zero value of the `Election` struct (EVM storage default).
An election exists iff its `startTime` is positive (`electionExists`). -/
def defaultElection : Election :=
  ⟨0, "", "", "", 0, 0, false, fun _ => defaultCandidate, 0⟩

/-- A `VoteHistory` entry: `{electionId, candidateId, timestamp}`. -/
structure VoteHistory where
  electionId : Nat
  candidateId : Nat
  timestamp : Nat
deriving Repr, DecidableEq

/-- The full contract storage: the `Ownable` owner, the election counter,
and the four storage mappings. -/
structure VState where
  owner : Nat
  electionCounter : Nat
  elections : Nat → Election
  userVotes : Nat → Nat → Bool
  userVoteHistory : Nat → List VoteHistory
  admins : Nat → Bool

/-- Pointwise update of a mapping, as a Solidity storage write. -/
def upd {α : Type} (m : Nat → α) (k : Nat) (v : α) : Nat → α :=
  fun k2 => if k2 = k then v else m k2

theorem upd_same {α : Type} (m : Nat → α) (k : Nat) (v : α) : upd m k v k = v := by
  simp [upd]

theorem upd_other {α : Type} (m : Nat → α) (k : Nat) (v : α) (k2 : Nat)
    (h : k2 ≠ k) : upd m k v k2 = m k2 := by
  simp [upd, h]

/-- The state right after the constructor runs with deployer `d`:
`Ownable` makes `d` the owner, and the constructor sets `admins[d] = true`.
All other storage is zero. -/
def initState (d : Nat) : VState :=
  { owner := d
    electionCounter := 0
    elections := fun _ => defaultElection
    userVotes := fun _ _ => false
    userVoteHistory := fun _ => []
    admins := fun a => if a = d then true else false }

/-- Revert reasons, one per distinct `require` message in the contract.
`notActive` is the message "Election is not active", shared by `vote`,
`addCandidate` and the already-closed branch of `closeElection` (the
spec's `ElectionClosed` / `AlreadyClosed`). -/
inductive VError where
  | notAuthorized      -- "Not authorized" (onlyAdmin)
  | notOwner           -- Ownable: "caller is not the owner"
  | electionNotFound   -- "Election does not exist"
  | notStarted         -- "Election not started"
  | ended              -- "Election ended"
  | alreadyVoted       -- "Already voted in this election"
  | notActive          -- "Election is not active"
  | invalidCandidate   -- "Invalid candidate ID"
  | startNotInFuture   -- "Start time must be in future"
  | endNotAfterStart   -- "End time must be after start time"
  | stillActive        -- "Election still active"
  | cannotRemoveSelf   -- "Cannot remove self"
deriving Repr, DecidableEq

/-- The `onlyAdmin` modifier: `admins[msg.sender] || msg.sender == owner()`. -/
def isAdminOrOwner (s : VState) (sender : Nat) : Bool :=
  s.admins sender || sender == s.owner

/-- One external mutating call. Each carries `block.timestamp` (`now`) and
`msg.sender`. -/
inductive Op where
  | createElection (now sender : Nat)
      (title department description : String) (startTime endTime : Nat)
  | addCandidate (now sender electionId : Nat) (name : String)
  | vote (now sender electionId candidateId : Nat)
  | closeElection (now sender electionId : Nat)
  | addAdmin (now sender admin : Nat)
  | removeAdmin (now sender admin : Nat)

/-- The `block.timestamp` at which an operation runs. -/
def opTime : Op → Nat
  | .createElection now _ _ _ _ _ _ => now
  | .addCandidate now _ _ _ => now
  | .vote now _ _ _ => now
  | .closeElection now _ _ => now
  | .addAdmin now _ _ => now
  | .removeAdmin now _ _ => now

/-- Execute one call against the storage; `Except.error` models a revert.
Checks appear in the contract's order: modifiers left to right, then the
body's `require`s. -/
def exec (s : VState) : Op → Except VError VState
  | .createElection now sender title dept descr st en =>
    if isAdminOrOwner s sender = false then .error .notAuthorized
    else if st ≤ now then .error .startNotInFuture
    else if en ≤ st then .error .endNotAfterStart
    else
      .ok { s with
        electionCounter := s.electionCounter + 1
        elections := upd s.elections (s.electionCounter + 1)
          { s.elections (s.electionCounter + 1) with
            id := s.electionCounter + 1
            title := title
            department := dept
            description := descr
            startTime := st
            endTime := en
            isActive := true
            candidatesCount := 0 } }
  | .addCandidate _now sender eId name =>
    if isAdminOrOwner s sender = false then .error .notAuthorized
    else if (s.elections eId).startTime = 0 then .error .electionNotFound
    else if (s.elections eId).isActive = false then .error .notActive
    else
      .ok { s with
        elections := upd s.elections eId
          { s.elections eId with
            candidatesCount := (s.elections eId).candidatesCount + 1
            candidates := upd (s.elections eId).candidates
              ((s.elections eId).candidatesCount + 1)
              { id := (s.elections eId).candidatesCount + 1
                name := name
                voteCount := 0 } } }
  | .vote now sender eId cId =>
    if (s.elections eId).startTime = 0 then .error .electionNotFound
    else if now < (s.elections eId).startTime then .error .notStarted
    else if (s.elections eId).endTime < now then .error .ended
    else if s.userVotes sender eId = true then .error .alreadyVoted
    else if (s.elections eId).isActive = false then .error .notActive
    else if (s.elections eId).candidatesCount < cId then .error .invalidCandidate
    else
      .ok { s with
        userVotes := upd s.userVotes sender (upd (s.userVotes sender) eId true)
        userVoteHistory := upd s.userVoteHistory sender
          (s.userVoteHistory sender ++ [⟨eId, cId, now⟩])
        elections := upd s.elections eId
          { s.elections eId with
            candidates := upd (s.elections eId).candidates cId
              { (s.elections eId).candidates cId with
                voteCount := ((s.elections eId).candidates cId).voteCount + 1 } } }
  | .closeElection now sender eId =>
    if isAdminOrOwner s sender = false then .error .notAuthorized
    else if (s.elections eId).startTime = 0 then .error .electionNotFound
    else if now ≤ (s.elections eId).endTime then .error .stillActive
    else if (s.elections eId).isActive = false then .error .notActive
    else
      .ok { s with
        elections := upd s.elections eId
          { s.elections eId with isActive := false } }
  | .addAdmin _now sender a =>
    if sender ≠ s.owner then .error .notOwner
    else .ok { s with admins := upd s.admins a true }
  | .removeAdmin _now sender a =>
    if sender ≠ s.owner then .error .notOwner
    else if a = sender then .error .cannotRemoveSelf
    else .ok { s with admins := upd s.admins a false }

/-- A reverted call leaves the storage unchanged. -/
def applyOp (s : VState) (op : Op) : VState :=
  match exec s op with
  | .ok s2 => s2
  | .error _ => s

/-- Run a sequence of external calls from a state. -/
def run (s : VState) : List Op → VState
  | [] => s
  | op :: rest => run (applyOp s op) rest

/-- Whether a call succeeds (does not revert). -/
def execOk (s : VState) (op : Op) : Bool :=
  match exec s op with
  | .ok _ => true
  | .error _ => false

/-- The revert reason of a call, `none` if it succeeds. -/
def execErr (s : VState) (op : Op) : Option VError :=
  match exec s op with
  | .ok _ => none
  | .error e => some e

/-- What the `getElection` view returns. -/
structure ElectionView where
  id : Nat
  title : String
  department : String
  description : String
  startTime : Nat
  endTime : Nat
  isActive : Bool
  candidatesCount : Nat
deriving Repr, DecidableEq

/-- `getElection`: reads the stored record, never reverts. -/
def getElection (s : VState) (eId : Nat) : ElectionView :=
  ⟨(s.elections eId).id, (s.elections eId).title, (s.elections eId).department,
   (s.elections eId).description, (s.elections eId).startTime,
   (s.elections eId).endTime, (s.elections eId).isActive,
   (s.elections eId).candidatesCount⟩

/-- `getCandidate`: reads the stored record, never reverts. -/
def getCandidate (s : VState) (eId cId : Nat) : Candidate :=
  (s.elections eId).candidates cId

/-- `hasUserVoted(electionId, user)`. -/
def hasUserVoted (s : VState) (eId user : Nat) : Bool :=
  s.userVotes user eId

/-- `getUserTotalVotes(user)`: the length of the user's vote history. -/
def getUserTotalVotes (s : VState) (user : Nat) : Nat :=
  (s.userVoteHistory user).length

/-- The view of the zero election record, what `getElection` returns for a
slot that was never written. -/
def defaultElectionView : ElectionView := ⟨0, "", "", "", 0, 0, false, 0⟩

/-- Sum of `voteCount` over the candidate ids `1..candidatesCount` of an
election — the tally the spec's conservation property talks about. -/
def tallySum (s : VState) (eId : Nat) : Nat :=
  Finset.sum (Finset.Icc 1 (s.elections eId).candidatesCount)
    (fun i => ((s.elections eId).candidates i).voteCount)

/-! ### Concrete demonstration traces -/

/-- Deployer 0 creates election 1 with window `[10, 100]` and adds the
candidates Alice (id 1) and Bob (id 2). -/
def demoSetup : List Op :=
  [.createElection 0 0 "T" "CS" "D" 10 100,
   .addCandidate 1 0 1 "Alice",
   .addCandidate 2 0 1 "Bob"]

/-- The state after `demoSetup`. -/
def demoState : VState := run (initState 0) demoSetup

/-- `demoState` after voter 7 successfully votes for candidate 1 at time 50. -/
def demoVoted : VState := applyOp demoState (.vote 50 7 1 1)

/-- `demoState` after voter 7 votes with candidate id 0 at time 50 — the
call the contract accepts although no candidate 0 exists. -/
def demoZeroVoted : VState := applyOp demoState (.vote 50 7 1 0)

example : execOk demoState (.vote 50 7 1 1) = true := by decide
example : execOk demoState (.vote 50 7 1 0) = true := by decide
example : execErr demoVoted (.vote 60 7 1 2) = some VError.alreadyVoted := by decide
example : tallySum demoVoted 1 = 1 := by decide

/-! ### Reachability invariants -/

/-- Election slots that were never allocated (id 0, or beyond the counter)
still hold the zero record. -/
def Inv (s : VState) : Prop :=
  ∀ e, (e = 0 ∨ s.electionCounter < e) → s.elections e = defaultElection

theorem inv_init (d : Nat) : Inv (initState d) := by
  intro e _
  rfl

theorem inv_step (s : VState) (op : Op) (h : Inv s) : Inv (applyOp s op) := by
  cases op with
  | createElection now sender title dept descr st en =>
    simp only [applyOp, exec]
    split_ifs with h1 h2 h3
    · exact h
    · exact h
    · exact h
    · intro e he
      have he2 : e = 0 ∨ s.electionCounter + 1 < e := he
      show upd s.elections (s.electionCounter + 1) _ e = defaultElection
      rw [upd_other]
      · exact h e (by omega)
      · omega
  | addCandidate now sender eId name =>
    simp only [applyOp, exec]
    split_ifs with h1 h2 h3
    · exact h
    · exact h
    · exact h
    · intro e he
      have hd := h e he
      show upd s.elections eId _ e = defaultElection
      rcases eq_or_ne e eId with heq | hne
      · subst heq
        have h0 : (s.elections e).startTime = 0 := by rw [hd]; rfl
        exact absurd h0 h2
      · rw [upd_other _ _ _ _ hne]
        exact hd
  | vote now sender eId cId =>
    simp only [applyOp, exec]
    split_ifs with h1 h2 h3 h4 h5 h6
    · exact h
    · exact h
    · exact h
    · exact h
    · exact h
    · exact h
    · intro e he
      have hd := h e he
      show upd s.elections eId _ e = defaultElection
      rcases eq_or_ne e eId with heq | hne
      · subst heq
        have h0 : (s.elections e).startTime = 0 := by rw [hd]; rfl
        exact absurd h0 h1
      · rw [upd_other _ _ _ _ hne]
        exact hd
  | closeElection now sender eId =>
    simp only [applyOp, exec]
    split_ifs with h1 h2 h3 h4
    · exact h
    · exact h
    · exact h
    · exact h
    · intro e he
      have hd := h e he
      show upd s.elections eId _ e = defaultElection
      rcases eq_or_ne e eId with heq | hne
      · subst heq
        have h0 : (s.elections e).startTime = 0 := by rw [hd]; rfl
        exact absurd h0 h2
      · rw [upd_other _ _ _ _ hne]
        exact hd
  | addAdmin now sender a =>
    simp only [applyOp, exec]
    split_ifs with h1
    · exact h
    · exact h
  | removeAdmin now sender a =>
    simp only [applyOp, exec]
    split_ifs with h1 h2
    · exact h
    · exact h
    · exact h

theorem applyOp_ok (s : VState) (op : Op) (s2 : VState)
    (h : exec s op = .ok s2) : applyOp s op = s2 := by
  simp [applyOp, h]

theorem applyOp_err (s : VState) (op : Op) (e : VError)
    (h : exec s op = .error e) : applyOp s op = s := by
  simp [applyOp, h]

/-- Once a `(voter, election)` vote flag is set, no operation resets it. -/
theorem userVotes_mono_step (s : VState) (op : Op) (V E : Nat)
    (h : s.userVotes V E = true) : (applyOp s op).userVotes V E = true := by
  cases hres : exec s op with
  | error e0 => rw [applyOp_err s op e0 hres]; exact h
  | ok s2 =>
    rw [applyOp_ok s op s2 hres]
    cases op with
    | createElection now sender title dept descr st en =>
      simp only [exec] at hres
      split_ifs at hres <;> try exact Except.noConfusion hres
      injection hres with hres
      subst hres
      exact h
    | addCandidate now sender eId name =>
      simp only [exec] at hres
      split_ifs at hres <;> try exact Except.noConfusion hres
      injection hres with hres
      subst hres
      exact h
    | vote now sender eId cId =>
      simp only [exec] at hres
      split_ifs at hres <;> try exact Except.noConfusion hres
      injection hres with hres
      subst hres
      show upd s.userVotes sender (upd (s.userVotes sender) eId true) V E = true
      by_cases hV : V = sender
      · subst hV
        rw [upd_same]
        by_cases hE : E = eId
        · subst hE; rw [upd_same]
        · rw [upd_other _ _ _ _ hE]; exact h
      · rw [upd_other _ _ _ _ hV]; exact h
    | closeElection now sender eId =>
      simp only [exec] at hres
      split_ifs at hres <;> try exact Except.noConfusion hres
      injection hres with hres
      subst hres
      exact h
    | addAdmin now sender a =>
      simp only [exec] at hres
      split_ifs at hres <;> try exact Except.noConfusion hres
      injection hres with hres
      subst hres
      exact h
    | removeAdmin now sender a =>
      simp only [exec] at hres
      split_ifs at hres <;> try exact Except.noConfusion hres
      injection hres with hres
      subst hres
      exact h

theorem inv_run_from (ops : List Op) (s : VState) (h : Inv s) : Inv (run s ops) := by
  induction ops generalizing s with
  | nil => exact h
  | cons op rest ih => exact ih (applyOp s op) (inv_step s op h)

theorem inv_run (d : Nat) (ops : List Op) : Inv (run (initState d) ops) :=
  inv_run_from ops (initState d) (inv_init d)

/-! ### Vote-uniqueness machinery (claim C1) -/

/-- A successful `vote` requires the `(voter, election)` flag to be clear
and sets it. -/
theorem exec_vote_ok_flags (s : VState) (now V eId cId : Nat) (s2 : VState)
    (h : exec s (.vote now V eId cId) = .ok s2) :
    s.userVotes V eId = false ∧ s2.userVotes V eId = true := by
  simp only [exec] at h
  split_ifs at h with h1 h2 h3 h4 h5 h6 <;> try exact Except.noConfusion h
  injection h with h
  subst h
  refine ⟨?_, ?_⟩
  · cases hb : s.userVotes V eId with
    | false => rfl
    | true => exact absurd hb h4
  · show upd s.userVotes V (upd (s.userVotes V) eId true) V eId = true
    rw [upd_same, upd_same]

/-- A `vote` by a voter whose flag is set, on an existing election inside
its time window, reverts with "Already voted in this election". -/
theorem exec_vote_already (s : VState) (now V eId cId : Nat)
    (h1 : (s.elections eId).startTime ≠ 0)
    (h2 : (s.elections eId).startTime ≤ now)
    (h3 : now ≤ (s.elections eId).endTime)
    (h4 : s.userVotes V eId = true) :
    exec s (.vote now V eId cId) = .error .alreadyVoted := by
  simp only [exec]
  rw [if_neg h1, if_neg (not_lt.mpr h2), if_neg (not_lt.mpr h3), if_pos h4]

/-- Whether `op` is a successful vote by `V` in election `E` from state `s`. -/
def voteHit (V E : Nat) (s : VState) (op : Op) : Bool :=
  match op with
  | .vote _ sender eId _ => sender == V && eId == E && execOk s op
  | _ => false

/-- Number of successful votes by `V` in election `E` along a call trace. -/
def countVotes (V E : Nat) : VState → List Op → Nat
  | _, [] => 0
  | s, op :: rest =>
    (if voteHit V E s op then 1 else 0) + countVotes V E (applyOp s op) rest

/-- Once the vote flag is set, no further vote by that voter in that
election can succeed. -/
theorem countVotes_voted (V E : Nat) (ops : List Op) : ∀ s : VState,
    s.userVotes V E = true → countVotes V E s ops = 0 := by
  induction ops with
  | nil => intro s _; rfl
  | cons op rest ih =>
    intro s hs
    have hhit : voteHit V E s op = false := by
      cases op with
      | vote now sender eId cId =>
        simp only [voteHit, Bool.and_eq_false_iff]
        by_cases hS : sender = V
        · by_cases hE : eId = E
          · subst hS; subst hE
            right
            cases hexec : exec s (.vote now sender eId cId) with
            | ok s2 =>
              have := (exec_vote_ok_flags s now sender eId cId s2 hexec).1
              rw [hs] at this
              exact Bool.noConfusion this
            | error e0 => simp [execOk, hexec]
          · left; right; simp [hE]
        · left; left; simp [hS]
      | createElection now sender title dept descr st en => rfl
      | addCandidate now sender eId name => rfl
      | closeElection now sender eId => rfl
      | addAdmin now sender a => rfl
      | removeAdmin now sender a => rfl
    show (if voteHit V E s op then 1 else 0) + countVotes V E (applyOp s op) rest = 0
    rw [hhit, ih (applyOp s op) (userVotes_mono_step s op V E hs)]
    rfl

/-- From a state where `V` has not voted in `E`, at most one vote by `V`
in `E` along any call trace succeeds. -/
theorem countVotes_le_one (V E : Nat) (ops : List Op) : ∀ s : VState,
    s.userVotes V E = false → countVotes V E s ops ≤ 1 := by
  induction ops with
  | nil => intro s _; exact Nat.zero_le 1
  | cons op rest ih =>
    intro s hs
    show (if voteHit V E s op then 1 else 0) + countVotes V E (applyOp s op) rest ≤ 1
    by_cases hhit : voteHit V E s op = true
    · cases op with
      | vote now sender eId cId =>
        have hh2 := hhit
        simp only [voteHit, Bool.and_eq_true, beq_iff_eq] at hh2
        obtain ⟨⟨hS, hE⟩, hOk⟩ := hh2
        subst hS; subst hE
        cases hexec : exec s (.vote now sender eId cId) with
        | error e0 => rw [execOk, hexec] at hOk; exact Bool.noConfusion hOk
        | ok s2 =>
          rw [applyOp_ok _ _ _ hexec,
            countVotes_voted sender eId rest s2
              (exec_vote_ok_flags s now sender eId cId s2 hexec).2]
          simp [hhit]
      | createElection now sender title dept descr st en => exact Bool.noConfusion hhit
      | addCandidate now sender eId name => exact Bool.noConfusion hhit
      | closeElection now sender eId => exact Bool.noConfusion hhit
      | addAdmin now sender a => exact Bool.noConfusion hhit
      | removeAdmin now sender a => exact Bool.noConfusion hhit
    · rw [Bool.not_eq_true] at hhit
      have hz : (if voteHit V E s op then 1 else 0) = 0 := by simp [hhit]
      rw [hz, Nat.zero_add]
      cases hv : (applyOp s op).userVotes V E with
      | true => rw [countVotes_voted V E rest _ hv]; exact Nat.zero_le 1
      | false => exact ih (applyOp s op) hv

/-!
### Claim C1 (corrected)

The uniqueness part of the claim holds: along any call trace from the
deployed contract, at most one `vote` by voter `V` in election `E`
succeeds, the successful vote requires the `(V, E)` flag to be clear and
sets it, and no operation ever resets it.  The error part is too strong:
a subsequent attempt reverts with `AlreadyVoted` only when it survives
the earlier existence and time-window checks, since `validElectionTime`
runs before `hasNotVoted`; an attempt after `endTime` reverts with
`Ended` instead (see `claim1_counterexample`).
-/

/-- C1 (amended): for every deployer, voter `V` and election `E`, at most
one `vote(E, *, V)` succeeds along any call trace; a successful vote
requires the `(V, E)` vote record to be `false` and sets it to `true`; no
operation ever resets it; and a repeat attempt made while the election
exists and the current time is inside `[startTime, endTime]` reverts with
`AlreadyVoted`, whatever the candidate id. -/
theorem claim1_vote_uniqueness :
    (∀ d V E ops, countVotes V E (initState d) ops ≤ 1) ∧
    (∀ s now V eId cId s2, exec s (.vote now V eId cId) = .ok s2 →
      s.userVotes V eId = false ∧ s2.userVotes V eId = true) ∧
    (∀ s op V E, s.userVotes V E = true → (applyOp s op).userVotes V E = true) ∧
    (∀ s now V eId cId, (s.elections eId).startTime ≠ 0 →
      (s.elections eId).startTime ≤ now → now ≤ (s.elections eId).endTime →
      s.userVotes V eId = true →
      exec s (.vote now V eId cId) = .error .alreadyVoted) :=
  ⟨fun d V E ops => countVotes_le_one V E ops (initState d) rfl,
   exec_vote_ok_flags,
   userVotes_mono_step,
   exec_vote_already⟩

/-- C1 counterexample to the claim as stated: after voter 7's successful
vote at time 50 in election 1 (window `[10, 100]`), the repeat attempt at
time 150 reverts with `Ended`, not with `AlreadyVoted`, because the
time-window check runs before the double-vote check. -/
theorem claim1_counterexample :
    execErr demoVoted (.vote 150 7 1 1) = some VError.ended ∧
    VError.ended ≠ VError.alreadyVoted := by
  decide

/-- C1 witness: the amended theorem applied to the demonstration trace. -/
theorem claim1_witness :
    countVotes 7 1 (initState 0) (demoSetup ++ [.vote 50 7 1 1, .vote 60 7 1 2]) ≤ 1 ∧
    demoVoted.userVotes 7 1 = true ∧
    (applyOp demoVoted (.addAdmin 0 0 5)).userVotes 7 1 = true ∧
    exec demoVoted (.vote 60 7 1 2) = .error .alreadyVoted :=
  ⟨claim1_vote_uniqueness.1 0 7 1 (demoSetup ++ [.vote 50 7 1 1, .vote 60 7 1 2]),
   (claim1_vote_uniqueness.2.1 demoState 50 7 1 1 demoVoted rfl).2,
   claim1_vote_uniqueness.2.2.1 demoVoted (.addAdmin 0 0 5) 7 1 (by decide),
   claim1_vote_uniqueness.2.2.2 demoVoted 60 7 1 2 (by decide) (by decide)
     (by decide) (by decide)⟩

/-!
### Claims C2 and C3 (code bugs)

`vote` checks only `_candidateId <= candidatesCount` and not
`_candidateId >= 1`, so `candidateId = 0` — a candidate that does not
exist — is accepted.  This contradicts the spec's
`InvalidCandidate — candidateId is not in [1, candidatesCount]` (C3) and,
through the same input, breaks the tally-conservation property (C2): the
vote is appended to the voter's history but no candidate in
`1..candidatesCount` is incremented.
-/

/-- C3 failing input: in election 1 (candidates 1..2, window `[10, 100]`),
a fresh voter's `vote` with candidate id 0 at time 50 succeeds instead of
reverting with `InvalidCandidate`; an id above `candidatesCount` does
revert. -/
theorem claim3_candidate_zero_accepted :
    execOk demoState (.vote 50 7 1 0) = true ∧
    execErr demoState (.vote 50 7 1 0) ≠ some VError.invalidCandidate ∧
    execErr demoState (.vote 50 7 1 3) = some VError.invalidCandidate := by
  decide

/-- C2 failing input: after the accepted `candidateId = 0` vote, the sum
of `voteCount` over candidates `1..candidatesCount` of election 1 is
still 0, while the vote history holds one entry for election 1. -/
theorem claim2_tally_mismatch :
    execOk demoState (.vote 50 7 1 0) = true ∧
    tallySum demoZeroVoted 1 = 0 ∧
    ((demoZeroVoted.userVoteHistory 7).filter
      (fun h => h.electionId == 1)).length = 1 ∧
    getUserTotalVotes demoZeroVoted 7 = 1 := by
  decide

/-!
### Claim C4 (corrected)

`createElection` validates only the schedule (`startTime` strictly in the
future, `endTime > startTime`).  It performs no emptiness check on
`title`, `department` or `description`, so the claimed `InvalidInput`
failure does not exist: the call succeeds and stores the election even
when all three strings are empty.
-/

/-- C4 counterexample to the claim as stated: the deployer creates an
election with empty title, department and description; the call succeeds
(no revert) and the record is stored. -/
theorem claim4_counterexample :
    execErr (initState 0) (.createElection 0 0 "" "" "" 10 20) = none ∧
    getElection (applyOp (initState 0) (.createElection 0 0 "" "" "" 10 20)) 1 =
      ⟨1, "", "", "", 10, 20, true, 0⟩ := by
  decide

/-- C4 (amended): for every admin (or owner) caller and every schedule
passing the time checks, `createElection` with empty title, department
and description succeeds — there is no `InvalidInput` validation — and
stores the election under the next id with the empty fields. -/
theorem claim4_create_no_empty_check (s : VState) (now sender st en : Nat)
    (hA : isAdminOrOwner s sender = true) (h1 : now < st) (h2 : st < en) :
    exec s (.createElection now sender "" "" "" st en) =
      .ok { s with
        electionCounter := s.electionCounter + 1
        elections := upd s.elections (s.electionCounter + 1)
          { s.elections (s.electionCounter + 1) with
            id := s.electionCounter + 1
            title := ""
            department := ""
            description := ""
            startTime := st
            endTime := en
            isActive := true
            candidatesCount := 0 } } ∧
    getElection (applyOp s (.createElection now sender "" "" "" st en))
      (s.electionCounter + 1) =
      ⟨s.electionCounter + 1, "", "", "", st, en, true, 0⟩ := by
  have hexec : exec s (.createElection now sender "" "" "" st en) =
      .ok { s with
        electionCounter := s.electionCounter + 1
        elections := upd s.elections (s.electionCounter + 1)
          { s.elections (s.electionCounter + 1) with
            id := s.electionCounter + 1
            title := ""
            department := ""
            description := ""
            startTime := st
            endTime := en
            isActive := true
            candidatesCount := 0 } } := by
    simp only [exec]
    rw [if_neg (by simp [hA]), if_neg (not_le.mpr h1), if_neg (not_le.mpr h2)]
  refine ⟨hexec, ?_⟩
  rw [applyOp_ok _ _ _ hexec]
  simp [getElection, upd_same]

/-- C4 witness: the amended theorem applied to the deployed contract. -/
theorem claim4_witness :
    exec (initState 0) (.createElection 0 0 "" "" "" 10 20) =
      .ok { initState 0 with
        electionCounter := (initState 0).electionCounter + 1
        elections := upd (initState 0).elections ((initState 0).electionCounter + 1)
          { (initState 0).elections ((initState 0).electionCounter + 1) with
            id := (initState 0).electionCounter + 1
            title := ""
            department := ""
            description := ""
            startTime := 10
            endTime := 20
            isActive := true
            candidatesCount := 0 } } ∧
    getElection (applyOp (initState 0) (.createElection 0 0 "" "" "" 10 20))
      ((initState 0).electionCounter + 1) =
      ⟨(initState 0).electionCounter + 1, "", "", "", 10, 20, true, 0⟩ :=
  claim4_create_no_empty_check (initState 0) 0 0 10 20 (by decide) (by decide)
    (by decide)

/-!
### Claim C5 (corrected)

`getElection` and `getCandidate` are Solidity `view` functions without
any `require`: they never revert, for known or unknown ids.  For an
unallocated election id they return the zero record instead of the
claimed `NotFound` failure, and for a candidate id strictly above
`candidatesCount` `getCandidate` returns the zero candidate.  Candidate
slot 0 — the other id outside `[1, candidatesCount]` — is *not* always
zero: the accepted `candidateId = 0` votes (the C3 bug) increment its
`voteCount`.
-/

/-- Candidate slots strictly above `candidatesCount` were never written
and still hold the zero candidate.  (Slot 0 is excluded: the contract's
accepted `candidateId = 0` votes write to it.) -/
def CandOk (s : VState) : Prop :=
  ∀ e c, (s.elections e).candidatesCount < c →
    (s.elections e).candidates c = defaultCandidate

theorem candOk_init (d : Nat) : CandOk (initState d) := by
  intro e c _
  rfl

theorem candOk_step (s : VState) (op : Op) (hInv : Inv s) (h : CandOk s) :
    CandOk (applyOp s op) := by
  cases hres : exec s op with
  | error e0 => rw [applyOp_err s op e0 hres]; exact h
  | ok s2 =>
    rw [applyOp_ok s op s2 hres]
    cases op with
    | createElection now sender title dept descr st en =>
      simp only [exec] at hres
      split_ifs at hres <;> try exact Except.noConfusion hres
      injection hres with hres
      subst hres
      intro e c hc
      dsimp only at hc ⊢
      by_cases heq : e = s.electionCounter + 1
      · subst heq
        rw [upd_same] at hc ⊢
        have hd := hInv (s.electionCounter + 1) (Or.inr (by omega))
        show (s.elections (s.electionCounter + 1)).candidates c = defaultCandidate
        rw [hd]
        rfl
      · rw [upd_other _ _ _ _ heq] at hc ⊢
        exact h e c hc
    | addCandidate now sender eId name =>
      simp only [exec] at hres
      split_ifs at hres <;> try exact Except.noConfusion hres
      injection hres with hres
      subst hres
      intro e c hc
      dsimp only at hc ⊢
      by_cases heq : e = eId
      · subst heq
        rw [upd_same] at hc ⊢
        have hc2 : (s.elections e).candidatesCount + 1 < c := hc
        show (upd (s.elections e).candidates ((s.elections e).candidatesCount + 1)
          _ c) = defaultCandidate
        rw [upd_other _ _ _ _ (by omega)]
        exact h e c (by omega)
      · rw [upd_other _ _ _ _ heq] at hc ⊢
        exact h e c hc
    | vote now sender eId cId =>
      simp only [exec] at hres
      split_ifs at hres with f1 f2 f3 f4 f5 f6 <;> try exact Except.noConfusion hres
      injection hres with hres
      subst hres
      intro e c hc
      dsimp only at hc ⊢
      by_cases heq : e = eId
      · subst heq
        rw [upd_same] at hc ⊢
        have hc2 : (s.elections e).candidatesCount < c := hc
        have hcid : cId ≤ (s.elections e).candidatesCount := not_lt.mp f6
        show (upd (s.elections e).candidates cId _ c) = defaultCandidate
        rw [upd_other _ _ _ _ (by omega)]
        exact h e c hc2
      · rw [upd_other _ _ _ _ heq] at hc ⊢
        exact h e c hc
    | closeElection now sender eId =>
      simp only [exec] at hres
      split_ifs at hres <;> try exact Except.noConfusion hres
      injection hres with hres
      subst hres
      intro e c hc
      dsimp only at hc ⊢
      by_cases heq : e = eId
      · subst heq
        rw [upd_same] at hc ⊢
        exact h e c hc
      · rw [upd_other _ _ _ _ heq] at hc ⊢
        exact h e c hc
    | addAdmin now sender a =>
      simp only [exec] at hres
      split_ifs at hres <;> try exact Except.noConfusion hres
      injection hres with hres
      subst hres
      exact h
    | removeAdmin now sender a =>
      simp only [exec] at hres
      split_ifs at hres <;> try exact Except.noConfusion hres
      injection hres with hres
      subst hres
      exact h

theorem candOk_run_from (ops : List Op) : ∀ s : VState,
    Inv s → CandOk s → CandOk (run s ops) := by
  induction ops with
  | nil => intro s _ h; exact h
  | cons op rest ih =>
    intro s hI h
    exact ih (applyOp s op) (inv_step s op hI) (candOk_step s op hI h)

theorem candOk_run (d : Nat) (ops : List Op) :
    CandOk (run (initState d) ops) :=
  candOk_run_from ops (initState d) (inv_init d) (candOk_init d)

/-- C5 counterexample to the claim as stated: reading the unknown
election id 1 on the freshly deployed contract succeeds and returns the
zero record, and reading the out-of-range candidate ids 0 and 3 of
election 1 (which has candidates 1..2) returns the zero candidate — no
`NotFound` failure exists anywhere.  Moreover, after the accepted
`candidateId = 0` vote, `getCandidate(1, 0)` returns `voteCount = 1`:
slot 0 is out of range yet not even zero. -/
theorem claim5_counterexample :
    getElection (initState 0) 1 = defaultElectionView ∧
    getCandidate demoState 1 0 = defaultCandidate ∧
    getCandidate demoState 1 3 = defaultCandidate ∧
    getCandidate demoZeroVoted 1 0 = ⟨0, "", 1⟩ := by
  decide

/-- C5 (amended): the reads are pure functions of the state (they return
no modified state) and never fail, for known or unknown ids — there is
no `NotFound`.  In every reachable state: for an election id that was
never allocated (0, or beyond the election counter) they return the zero
election record and zero candidate record, and for any election
`getCandidate` returns the zero candidate for every candidate id
strictly greater than `candidatesCount`.  (Candidate id 0, the remaining
id outside `[1, candidatesCount]`, is not covered: the accepted
`candidateId = 0` votes of the C3 bug leave a nonzero `voteCount` in
slot 0 — see `claim5_counterexample`.) -/
theorem claim5_reads_default (d : Nat) (ops : List Op) (eId cId : Nat) :
    (eId = 0 ∨ (run (initState d) ops).electionCounter < eId →
      getElection (run (initState d) ops) eId = defaultElectionView ∧
      getCandidate (run (initState d) ops) eId cId = defaultCandidate) ∧
    (((run (initState d) ops).elections eId).candidatesCount < cId →
      getCandidate (run (initState d) ops) eId cId = defaultCandidate) := by
  constructor
  · intro h
    have hd := inv_run d ops eId h
    constructor
    · simp [getElection, hd, defaultElectionView, defaultElection]
    · simp [getCandidate, hd, defaultElection]
  · intro h
    exact candOk_run d ops eId cId h

/-- C5 witness: the amended theorem applied after the `candidateId = 0`
vote, at the unallocated election id 5 and at the out-of-range candidate
id 3 of the known election 1 (which has candidates 1..2). -/
theorem claim5_witness :
    (getElection (run (initState 0) (demoSetup ++ [Op.vote 50 7 1 0])) 5 =
        defaultElectionView ∧
      getCandidate (run (initState 0) (demoSetup ++ [Op.vote 50 7 1 0])) 5 1 =
        defaultCandidate) ∧
    getCandidate (run (initState 0) (demoSetup ++ [Op.vote 50 7 1 0])) 1 3 =
      defaultCandidate :=
  ⟨(claim5_reads_default 0 (demoSetup ++ [Op.vote 50 7 1 0]) 5 1).1
      (Or.inr (by decide)),
   (claim5_reads_default 0 (demoSetup ++ [Op.vote 50 7 1 0]) 1 3).2 (by decide)⟩

/-- A call whose `exec` result is `ok` does not revert. -/
theorem execOk_of_ok (s : VState) (op : Op) (s2 : VState)
    (h : exec s op = .ok s2) : execOk s op = true := by
  unfold execOk
  rw [h]

/-!
### Claim C6 (confirmed)

`validElectionTime` requires `block.timestamp >= startTime` and
`block.timestamp <= endTime`: both boundaries inclusive, `NotStarted`
strictly before `startTime`, `Ended` strictly after `endTime`.
-/

/-- C6: for an existing election with a coherent window, a fresh voter, an
active flag and a candidate id in `[1, candidatesCount]`: voting strictly
before `startTime` reverts `NotStarted`; voting exactly at `startTime`
succeeds; voting exactly at `endTime` succeeds; voting strictly after
`endTime` reverts `Ended`. -/
theorem claim6_vote_time_boundaries (s : VState) (now sender eId cId : Nat)
    (hex : (s.elections eId).startTime ≠ 0)
    (hse : (s.elections eId).startTime ≤ (s.elections eId).endTime)
    (hnv : s.userVotes sender eId = false)
    (hact : (s.elections eId).isActive = true)
    (hc1 : 1 ≤ cId) (hc2 : cId ≤ (s.elections eId).candidatesCount) :
    (now < (s.elections eId).startTime →
      exec s (.vote now sender eId cId) = .error .notStarted) ∧
    (now = (s.elections eId).startTime →
      execOk s (.vote now sender eId cId) = true) ∧
    (now = (s.elections eId).endTime →
      execOk s (.vote now sender eId cId) = true) ∧
    ((s.elections eId).endTime < now →
      exec s (.vote now sender eId cId) = .error .ended) := by
  refine ⟨?_, ?_, ?_, ?_⟩
  · intro h
    simp only [exec]
    rw [if_neg hex, if_pos h]
  · intro h
    apply execOk_of_ok
    simp only [exec]
    rw [if_neg hex, if_neg (by omega), if_neg (by omega), if_neg (by simp [hnv]),
      if_neg (by simp [hact]), if_neg (not_lt.mpr hc2)]
  · intro h
    apply execOk_of_ok
    simp only [exec]
    rw [if_neg hex, if_neg (by omega), if_neg (by omega), if_neg (by simp [hnv]),
      if_neg (by simp [hact]), if_neg (not_lt.mpr hc2)]
  · intro h
    simp only [exec]
    rw [if_neg hex, if_neg (by omega), if_pos h]

/-- C6 witness: the boundary behaviour on the demonstration election
(window `[10, 100]`): reverts at time 5, succeeds at 10 and at 100,
reverts at 101. -/
theorem claim6_witness :
    exec demoState (.vote 5 7 1 1) = .error .notStarted ∧
    execOk demoState (.vote 10 7 1 1) = true ∧
    execOk demoState (.vote 100 7 1 1) = true ∧
    exec demoState (.vote 101 7 1 1) = .error .ended :=
  ⟨(claim6_vote_time_boundaries demoState 5 7 1 1 (by decide) (by decide)
      (by decide) (by decide) (by decide) (by decide)).1 (by decide),
   (claim6_vote_time_boundaries demoState 10 7 1 1 (by decide) (by decide)
      (by decide) (by decide) (by decide) (by decide)).2.1 (by decide),
   (claim6_vote_time_boundaries demoState 100 7 1 1 (by decide) (by decide)
      (by decide) (by decide) (by decide) (by decide)).2.2.1 (by decide),
   (claim6_vote_time_boundaries demoState 101 7 1 1 (by decide) (by decide)
      (by decide) (by decide) (by decide) (by decide)).2.2.2 (by decide)⟩

/-!
### Claim C7 (confirmed)

`closeElection` reverts "Election still active" whenever
`block.timestamp <= endTime`; past `endTime` it succeeds once, setting
`isActive` to false, and any further call reverts "Election is not
active" (the spec's `AlreadyClosed`).
-/

/-- C7: for an admin caller and an existing election: closing at any time
`<= endTime` reverts `StillActive`; strictly after `endTime`, if the
election is still active, closing succeeds and stores `isActive = false`;
once `isActive` is false every further close reverts with the
already-closed error. -/
theorem claim7_close_election (s : VState) (now sender eId : Nat)
    (hA : isAdminOrOwner s sender = true)
    (hex : (s.elections eId).startTime ≠ 0) :
    (now ≤ (s.elections eId).endTime →
      exec s (.closeElection now sender eId) = .error .stillActive) ∧
    ((s.elections eId).endTime < now → (s.elections eId).isActive = true →
      exec s (.closeElection now sender eId) =
        .ok { s with
          elections := upd s.elections eId
            ({ s.elections eId with isActive := false }) } ∧
      ((applyOp s (.closeElection now sender eId)).elections eId).isActive = false) ∧
    ((s.elections eId).endTime < now → (s.elections eId).isActive = false →
      exec s (.closeElection now sender eId) = .error .notActive) := by
  refine ⟨?_, ?_, ?_⟩
  · intro h
    simp only [exec]
    rw [if_neg (by simp [hA]), if_neg hex, if_pos h]
  · intro h hact
    have hexec : exec s (.closeElection now sender eId) =
        .ok { s with
          elections := upd s.elections eId
            ({ s.elections eId with isActive := false }) } := by
      simp only [exec]
      rw [if_neg (by simp [hA]), if_neg hex, if_neg (not_le.mpr h),
        if_neg (by simp [hact])]
    refine ⟨hexec, ?_⟩
    rw [applyOp_ok _ _ _ hexec]
    simp [upd_same]
  · intro h hact
    simp only [exec]
    rw [if_neg (by simp [hA]), if_neg hex, if_neg (not_le.mpr h), if_pos hact]

/-- C7 witness: on the demonstration election (endTime 100): closing at
time 50 reverts `StillActive`; closing at 150 succeeds and clears
`isActive`; a second close at 160 reverts with the already-closed
error. -/
theorem claim7_witness :
    exec demoVoted (.closeElection 50 0 1) = .error .stillActive ∧
    ((applyOp demoVoted (.closeElection 150 0 1)).elections 1).isActive = false ∧
    exec (applyOp demoVoted (.closeElection 150 0 1)) (.closeElection 160 0 1) =
      .error .notActive :=
  ⟨(claim7_close_election demoVoted 50 0 1 (by decide) (by decide)).1 (by decide),
   ((claim7_close_election demoVoted 150 0 1 (by decide) (by decide)).2.1
      (by decide) (by decide)).2,
   (claim7_close_election (applyOp demoVoted (.closeElection 150 0 1)) 160 0 1
      (by decide) (by decide)).2.2 (by decide) (by decide)⟩

/-!
### Claim C8 (confirmed)

No operation changes an existing election's descriptive fields or
schedule, and `isActive` never goes back from `false` to `true`:
`createElection` writes only the fresh slot `electionCounter + 1` (beyond
every existing id, by the `Inv` invariant), `addCandidate` and `vote`
touch only the candidate roster, `closeElection` only clears `isActive`,
and the admin operations do not touch elections at all.
-/

/-- One step of field preservation: for any single operation and any
existing election, the five creation-time fields are unchanged and a
cleared `isActive` stays cleared. -/
theorem election_fields_step (s : VState) (op : Op) (hInv : Inv s) (eId : Nat)
    (hex : (s.elections eId).startTime ≠ 0) :
    ((applyOp s op).elections eId).title = (s.elections eId).title ∧
    ((applyOp s op).elections eId).department = (s.elections eId).department ∧
    ((applyOp s op).elections eId).description = (s.elections eId).description ∧
    ((applyOp s op).elections eId).startTime = (s.elections eId).startTime ∧
    ((applyOp s op).elections eId).endTime = (s.elections eId).endTime ∧
    ((s.elections eId).isActive = false →
      ((applyOp s op).elections eId).isActive = false) := by
  cases hres : exec s op with
  | error e0 =>
    rw [applyOp_err s op e0 hres]
    exact ⟨rfl, rfl, rfl, rfl, rfl, fun hf => hf⟩
  | ok s2 =>
    rw [applyOp_ok s op s2 hres]
    cases op with
    | createElection now sender title dept descr st en =>
      simp only [exec] at hres
      split_ifs at hres <;> try exact Except.noConfusion hres
      injection hres with hres
      subst hres
      have hne : eId ≠ s.electionCounter + 1 := by
        intro he
        have hd := hInv eId (Or.inr (by omega))
        apply hex
        rw [hd]
        rfl
      dsimp only
      rw [upd_other _ _ _ _ hne]
      exact ⟨rfl, rfl, rfl, rfl, rfl, fun hf => hf⟩
    | addCandidate now sender eId2 name =>
      simp only [exec] at hres
      split_ifs at hres <;> try exact Except.noConfusion hres
      injection hres with hres
      subst hres
      dsimp only
      by_cases heq : eId = eId2
      · subst heq
        rw [upd_same]
        exact ⟨rfl, rfl, rfl, rfl, rfl, fun hf => hf⟩
      · rw [upd_other _ _ _ _ heq]
        exact ⟨rfl, rfl, rfl, rfl, rfl, fun hf => hf⟩
    | vote now sender eId2 cId =>
      simp only [exec] at hres
      split_ifs at hres <;> try exact Except.noConfusion hres
      injection hres with hres
      subst hres
      dsimp only
      by_cases heq : eId = eId2
      · subst heq
        rw [upd_same]
        exact ⟨rfl, rfl, rfl, rfl, rfl, fun hf => hf⟩
      · rw [upd_other _ _ _ _ heq]
        exact ⟨rfl, rfl, rfl, rfl, rfl, fun hf => hf⟩
    | closeElection now sender eId2 =>
      simp only [exec] at hres
      split_ifs at hres <;> try exact Except.noConfusion hres
      injection hres with hres
      subst hres
      dsimp only
      by_cases heq : eId = eId2
      · subst heq
        rw [upd_same]
        exact ⟨rfl, rfl, rfl, rfl, rfl, fun _ => rfl⟩
      · rw [upd_other _ _ _ _ heq]
        exact ⟨rfl, rfl, rfl, rfl, rfl, fun hf => hf⟩
    | addAdmin now sender a =>
      simp only [exec] at hres
      split_ifs at hres <;> try exact Except.noConfusion hres
      injection hres with hres
      subst hres
      exact ⟨rfl, rfl, rfl, rfl, rfl, fun hf => hf⟩
    | removeAdmin now sender a =>
      simp only [exec] at hres
      split_ifs at hres <;> try exact Except.noConfusion hres
      injection hres with hres
      subst hres
      exact ⟨rfl, rfl, rfl, rfl, rfl, fun hf => hf⟩

/-- C8: in every reachable state, for every existing election and every
operation of the interface, the election's `title`, `department`,
`description`, `startTime` and `endTime` are unchanged by the operation,
and `isActive` never transitions from `false` back to `true`. -/
theorem claim8_immutable_fields (d : Nat) (ops : List Op) (op : Op) (eId : Nat)
    (hex : ((run (initState d) ops).elections eId).startTime ≠ 0) :
    ((applyOp (run (initState d) ops) op).elections eId).title =
      ((run (initState d) ops).elections eId).title ∧
    ((applyOp (run (initState d) ops) op).elections eId).department =
      ((run (initState d) ops).elections eId).department ∧
    ((applyOp (run (initState d) ops) op).elections eId).description =
      ((run (initState d) ops).elections eId).description ∧
    ((applyOp (run (initState d) ops) op).elections eId).startTime =
      ((run (initState d) ops).elections eId).startTime ∧
    ((applyOp (run (initState d) ops) op).elections eId).endTime =
      ((run (initState d) ops).elections eId).endTime ∧
    (((run (initState d) ops).elections eId).isActive = false →
      ((applyOp (run (initState d) ops) op).elections eId).isActive = false) :=
  election_fields_step (run (initState d) ops) op (inv_run d ops) eId hex

/-- C8 witness: adding a candidate to the demonstration election keeps
its fields. -/
theorem claim8_witness :
    ((applyOp demoState (.addCandidate 3 0 1 "C")).elections 1).title =
      (demoState.elections 1).title ∧
    ((applyOp demoState (.addCandidate 3 0 1 "C")).elections 1).department =
      (demoState.elections 1).department ∧
    ((applyOp demoState (.addCandidate 3 0 1 "C")).elections 1).description =
      (demoState.elections 1).description ∧
    ((applyOp demoState (.addCandidate 3 0 1 "C")).elections 1).startTime =
      (demoState.elections 1).startTime ∧
    ((applyOp demoState (.addCandidate 3 0 1 "C")).elections 1).endTime =
      (demoState.elections 1).endTime ∧
    ((demoState.elections 1).isActive = false →
      ((applyOp demoState (.addCandidate 3 0 1 "C")).elections 1).isActive = false) :=
  claim8_immutable_fields 0 demoSetup (.addCandidate 3 0 1 "C") 1 (by decide)

/-!
### Claim C9 (confirmed)

`closeElection` only succeeds strictly after `endTime`, so in any state
reached by calls at times `<= T`, an existing election with
`isActive = false` has `endTime < T`.  A `vote` at a time `now` at or
after all earlier calls therefore fails the `validElectionTime` check
with `Ended` before the explicit `isActive` check is reached: `vote`
never reverts with "Election is not active".
-/

/-- Every existing, explicitly closed election was closed strictly after
its `endTime`: with all call timestamps bounded by `T`, its `endTime`
lies strictly below `T`. -/
def ClosedLate (T : Nat) (s : VState) : Prop :=
  ∀ e, (s.elections e).startTime ≠ 0 → (s.elections e).isActive = false →
    (s.elections e).endTime < T

theorem closedLate_init (T d : Nat) : ClosedLate T (initState d) := by
  intro e h1 _
  exact absurd rfl h1

theorem closedLate_step (T : Nat) (s : VState) (op : Op) (hT : opTime op ≤ T)
    (h : ClosedLate T s) : ClosedLate T (applyOp s op) := by
  cases hres : exec s op with
  | error e0 => rw [applyOp_err s op e0 hres]; exact h
  | ok s2 =>
    rw [applyOp_ok s op s2 hres]
    cases op with
    | createElection now sender title dept descr st en =>
      simp only [exec] at hres
      split_ifs at hres <;> try exact Except.noConfusion hres
      injection hres with hres
      subst hres
      intro e h1 h2
      dsimp only at h1 h2 ⊢
      by_cases heq : e = s.electionCounter + 1
      · subst heq
        rw [upd_same] at h2
        exact absurd h2 (by simp)
      · rw [upd_other _ _ _ _ heq] at h1 h2 ⊢
        exact h e h1 h2
    | addCandidate now sender eId name =>
      simp only [exec] at hres
      split_ifs at hres <;> try exact Except.noConfusion hres
      injection hres with hres
      subst hres
      intro e h1 h2
      dsimp only at h1 h2 ⊢
      by_cases heq : e = eId
      · subst heq
        rw [upd_same] at h1 h2 ⊢
        exact h e h1 h2
      · rw [upd_other _ _ _ _ heq] at h1 h2 ⊢
        exact h e h1 h2
    | vote now sender eId cId =>
      simp only [exec] at hres
      split_ifs at hres <;> try exact Except.noConfusion hres
      injection hres with hres
      subst hres
      intro e h1 h2
      dsimp only at h1 h2 ⊢
      by_cases heq : e = eId
      · subst heq
        rw [upd_same] at h1 h2 ⊢
        exact h e h1 h2
      · rw [upd_other _ _ _ _ heq] at h1 h2 ⊢
        exact h e h1 h2
    | closeElection now sender eId =>
      simp only [exec] at hres
      split_ifs at hres with f1 f2 f3 f4 <;> try exact Except.noConfusion hres
      injection hres with hres
      subst hres
      intro e h1 h2
      dsimp only at h1 h2 ⊢
      have hT2 : now ≤ T := hT
      by_cases heq : e = eId
      · subst heq
        rw [upd_same] at h1 h2 ⊢
        have hlt : (s.elections e).endTime < now := not_le.mp f3
        show (s.elections e).endTime < T
        omega
      · rw [upd_other _ _ _ _ heq] at h1 h2 ⊢
        exact h e h1 h2
    | addAdmin now sender a =>
      simp only [exec] at hres
      split_ifs at hres <;> try exact Except.noConfusion hres
      injection hres with hres
      subst hres
      exact h
    | removeAdmin now sender a =>
      simp only [exec] at hres
      split_ifs at hres <;> try exact Except.noConfusion hres
      injection hres with hres
      subst hres
      exact h

theorem closedLate_run_from (T : Nat) (ops : List Op) : ∀ s : VState,
    ClosedLate T s → (∀ op ∈ ops, opTime op ≤ T) → ClosedLate T (run s ops) := by
  induction ops with
  | nil => intro s h _; exact h
  | cons op rest ih =>
    intro s h hT
    exact ih (applyOp s op)
      (closedLate_step T s op (hT op (List.mem_cons_self op rest)) h)
      (fun op2 hm => hT op2 (List.mem_cons_of_mem op hm))

theorem closedLate_run (T d : Nat) (ops : List Op)
    (hT : ∀ op ∈ ops, opTime op ≤ T) : ClosedLate T (run (initState d) ops) :=
  closedLate_run_from T ops (initState d) (closedLate_init T d) hT

/-- C9: with call timestamps non-decreasing (here: every earlier call ran
at a time `<= now`), a `vote` at time `now` never reverts with the
election-closed error "Election is not active": any explicitly closed
election already fails the time-window check with `Ended` first. -/
theorem claim9_vote_never_not_active (d : Nat) (ops : List Op)
    (now sender eId cId : Nat) (hT : ∀ op ∈ ops, opTime op ≤ now) :
    exec (run (initState d) ops) (.vote now sender eId cId) ≠
      .error .notActive := by
  intro hcontra
  have hcl := closedLate_run now d ops hT
  simp only [exec] at hcontra
  split_ifs at hcontra with h1 h2 h3 h4 h5 h6
  all_goals try (injection hcontra with hc; exact VError.noConfusion hc)
  all_goals try exact Except.noConfusion hcontra
  exact absurd (hcl eId h1 h5) h3

/-- C9 witness: after the demonstration setup and an explicit close at
time 150, a vote at time 150 does not report "Election is not active"
(it reverts with `Ended` instead). -/
theorem claim9_witness :
    exec (run (initState 0) (demoSetup ++ [.closeElection 150 0 1]))
      (.vote 150 7 1 1) ≠ .error .notActive :=
  claim9_vote_never_not_active 0 (demoSetup ++ [.closeElection 150 0 1])
    150 7 1 1 (by decide)

/-!
### Claim C10 (confirmed)

A history entry for election `E` is appended exactly when the
`(voter, E)` flag flips from false to true, so a voter's history holds
pairwise distinct election ids, membership in it coincides with
`hasUserVoted`, and `getUserTotalVotes` counts the distinct elections
voted in.
-/

/-- The per-voter history/flag consistency invariant. -/
def HistOk (s : VState) : Prop :=
  ∀ V, ((s.userVoteHistory V).map VoteHistory.electionId).Nodup ∧
    ∀ E, s.userVotes V E = true ↔
      E ∈ (s.userVoteHistory V).map VoteHistory.electionId

theorem histOk_init (d : Nat) : HistOk (initState d) := by
  intro V
  constructor
  · exact List.nodup_nil
  · intro E
    simp [initState]

theorem histOk_step (s : VState) (op : Op) (h : HistOk s) :
    HistOk (applyOp s op) := by
  cases hres : exec s op with
  | error e0 => rw [applyOp_err s op e0 hres]; exact h
  | ok s2 =>
    rw [applyOp_ok s op s2 hres]
    cases op with
    | createElection now sender title dept descr st en =>
      simp only [exec] at hres
      split_ifs at hres <;> try exact Except.noConfusion hres
      injection hres with hres
      subst hres
      exact h
    | addCandidate now sender eId name =>
      simp only [exec] at hres
      split_ifs at hres <;> try exact Except.noConfusion hres
      injection hres with hres
      subst hres
      exact h
    | vote now sender eId cId =>
      simp only [exec] at hres
      split_ifs at hres with f1 f2 f3 f4 f5 f6 <;> try exact Except.noConfusion hres
      injection hres with hres
      subst hres
      intro V
      dsimp only
      by_cases hV : V = sender
      · subst hV
        rw [upd_same, upd_same]
        have hnotmem : eId ∉ (s.userVoteHistory V).map VoteHistory.electionId := by
          intro hm
          exact f4 (((h V).2 eId).mpr hm)
        constructor
        · rw [List.map_append]
          rw [List.nodup_append]
          refine ⟨(h V).1, List.nodup_singleton eId, ?_⟩
          intro a ha hb
          rw [List.map_singleton, List.mem_singleton] at hb
          subst hb
          exact hnotmem ha
        · intro E
          rw [List.map_append, List.mem_append, List.map_singleton,
            List.mem_singleton]
          by_cases hE : E = eId
          · subst hE
            rw [upd_same]
            simp
          · rw [upd_other _ _ _ _ hE]
            constructor
            · intro hv
              exact Or.inl (((h V).2 E).mp hv)
            · intro hor
              rcases hor with hm | he2
              · exact ((h V).2 E).mpr hm
              · exact absurd he2 hE
      · rw [upd_other _ _ _ _ hV, upd_other _ _ _ _ hV]
        exact h V
    | closeElection now sender eId =>
      simp only [exec] at hres
      split_ifs at hres <;> try exact Except.noConfusion hres
      injection hres with hres
      subst hres
      exact h
    | addAdmin now sender a =>
      simp only [exec] at hres
      split_ifs at hres <;> try exact Except.noConfusion hres
      injection hres with hres
      subst hres
      exact h
    | removeAdmin now sender a =>
      simp only [exec] at hres
      split_ifs at hres <;> try exact Except.noConfusion hres
      injection hres with hres
      subst hres
      exact h

theorem histOk_run_from (ops : List Op) : ∀ s : VState,
    HistOk s → HistOk (run s ops) := by
  induction ops with
  | nil => intro s h; exact h
  | cons op rest ih => intro s h; exact ih (applyOp s op) (histOk_step s op h)

theorem histOk_run (d : Nat) (ops : List Op) :
    HistOk (run (initState d) ops) :=
  histOk_run_from ops (initState d) (histOk_init d)

/-- C10: in every reachable state and for every voter `V`, the election
ids in `V`'s vote history are pairwise distinct, an entry with election
id `E` exists exactly when `hasUserVoted(E, V)` returns true, and
`getUserTotalVotes(V)` equals the number of distinct elections `V` has
voted in. -/
theorem claim10_history_consistency (d : Nat) (ops : List Op) (V : Nat) :
    (((run (initState d) ops).userVoteHistory V).map
      VoteHistory.electionId).Nodup ∧
    (∀ E, hasUserVoted (run (initState d) ops) E V = true ↔
      E ∈ ((run (initState d) ops).userVoteHistory V).map
        VoteHistory.electionId) ∧
    getUserTotalVotes (run (initState d) ops) V =
      (((run (initState d) ops).userVoteHistory V).map
        VoteHistory.electionId).toFinset.card := by
  have h := histOk_run d ops V
  refine ⟨h.1, h.2, ?_⟩
  rw [List.toFinset_card_of_nodup h.1, List.length_map]
  rfl

/-- C10 witness: the consistency statement evaluated after voter 7's
successful vote in the demonstration trace. -/
theorem claim10_witness :
    ((demoVoted.userVoteHistory 7).map VoteHistory.electionId).Nodup ∧
    (∀ E, hasUserVoted demoVoted E 7 = true ↔
      E ∈ (demoVoted.userVoteHistory 7).map VoteHistory.electionId) ∧
    getUserTotalVotes demoVoted 7 =
      ((demoVoted.userVoteHistory 7).map VoteHistory.electionId).toFinset.card :=
  claim10_history_consistency 0 (demoSetup ++ [Op.vote 50 7 1 1]) 7

end VotingV2
